import Mathlib

/-!
Shallow embedding of `src/vb_crawler.py` (a VentureBeat article scraper that
persists records to a Supabase table).

The Python program's pure core consists of:
  * an extraction loop over the `<article>` elements of a rendered HTML page
    (`crawl_venturebeat`, lines 65-106), and
  * a persistence routine (`save_to_supabase`, lines 116-158) that queries the
    store for already-present links, filters the input down to unseen links,
    and upserts the remainder with `link` as the conflict key.

External collaborators (BeautifulSoup tree search, `datetime.fromisoformat`,
`urljoin`, the Supabase store) are modelled by executable Lean functions that
reproduce their behaviour on the inputs the program feeds them; each such model
carries a doc comment saying what it models.
-/

namespace VB

/-- An HTML DOM node as BeautifulSoup exposes it: either a text fragment or a
tag with a name, an attribute list and child nodes.  Models the parse tree
produced by `BeautifulSoup(driver.page_source, 'html.parser')`. -/
inductive Node where
  | text : String → Node
  | tag : String → List (String × String) → List Node → Node

mutual

/-- All descendant-or-self tags with the given name, in document (pre-)order.
Models BeautifulSoup's recursive tag search underlying `find_all` / `find`. -/
def allTagsNamed (name : String) : Node → List Node
  | .text _ => []
  | .tag t a c =>
      (if t = name then [Node.tag t a c] else []) ++ allTagsNamedL name c

/-- `allTagsNamed` over a list of sibling nodes, left to right. -/
def allTagsNamedL (name : String) : List Node → List Node
  | [] => []
  | n :: ns => allTagsNamed name n ++ allTagsNamedL name ns

end

/-- `el.find(name)`: the first strict-descendant tag with the given name, or
`none`.  Models BeautifulSoup `Tag.find` (a found tag is truthy in the source's
`if not title_tag or not title_tag.find('a')` test; `None` is falsy). -/
def findIn (name : String) (n : Node) : Option Node :=
  match n with
  | .text _ => none
  | .tag _ _ c => (allTagsNamedL name c).head?

/-- Attribute lookup on a tag, `none` when absent or on a text node.
`tag['attr']` in Python raises `KeyError` exactly when this is `none`;
`tag.has_attr('attr')` is `(attrLookup n attr).isSome`. -/
def attrLookup (n : Node) (key : String) : Option String :=
  match n with
  | .text _ => none
  | .tag _ attrs _ => attrs.lookup key

/-- Python `str.strip()`: remove leading and trailing whitespace. -/
def pyStrip (s : String) : String :=
  String.mk
    (((s.data.dropWhile Char.isWhitespace).reverse.dropWhile
      Char.isWhitespace).reverse)

/-- `s.startsWith p` over the underlying character lists. -/
def strStartsWith (s p : String) : Bool :=
  p.data.isPrefixOf s.data

mutual

/-- `el.get_text(strip=True)`: concatenation of every descendant text fragment
with each fragment stripped of leading/trailing whitespace. -/
def getTextStrip : Node → String
  | .text s => pyStrip s
  | .tag _ _ c => getTextStripL c

/-- `getTextStrip` over sibling nodes, concatenated in order. -/
def getTextStripL : List Node → String
  | [] => ""
  | [n] => getTextStrip n
  | n :: ns => getTextStrip n ++ getTextStripL ns

end

/-- Helper for `collapseWs`: the boolean records whether the previous character
was part of a whitespace run that already emitted its single space. -/
def collapseWsAux : List Char → Bool → List Char
  | [], _ => []
  | c :: cs, prevWs =>
      if c.isWhitespace then
        (if prevWs then [] else [' ']) ++ collapseWsAux cs true
      else
        c :: collapseWsAux cs false

/-- `re.sub(r'\s+', ' ', s)`: every maximal run of whitespace characters is
replaced by a single space. -/
def collapseWs (s : String) : String :=
  String.mk (collapseWsAux s.data false)

/-- Models `urllib.parse.urljoin(base, rel)` for the link shapes a listing page
produces: absolute URLs pass through, scheme-relative URLs inherit the base
scheme, root-relative and bare-relative paths are resolved against the base
origin (the source's base is the bare origin `https://venturebeat.com`). -/
def urljoin (base rel : String) : String :=
  if strStartsWith rel "http://" || strStartsWith rel "https://" then rel
  else if strStartsWith rel "//" then "https:" ++ rel
  else if strStartsWith rel "/" then base ++ rel
  else base ++ "/" ++ rel

/-- A parsed `datetime` value: calendar fields plus an optional UTC offset in
minutes.  `tzOffsetMinutes = none` is a naive datetime (`tzinfo is None`). -/
structure PyDateTime where
  year : Nat
  month : Nat
  day : Nat
  hour : Nat
  minute : Nat
  second : Nat
  tzOffsetMinutes : Option Int
deriving DecidableEq

/-- Read exactly `n` decimal digits, returning their value and the rest. -/
def readNDigits : Nat → Nat → List Char → Option (Nat × List Char)
  | 0, acc, cs => some (acc, cs)
  | n + 1, acc, c :: cs =>
      if c.isDigit then readNDigits n (acc * 10 + (c.toNat - 48)) cs else none
  | _ + 1, _, [] => none

/-- Consume one expected character. -/
def expectChar (c : Char) : List Char → Option (List Char)
  | d :: cs => if d = c then some cs else none
  | [] => none

/-- Parse a trailing UTC offset `+HH:MM` / `-HH:MM`, or nothing. -/
def parseOffset : List Char → Option (Option Int)
  | [] => some none
  | c :: cs =>
      if c = '+' || c = '-' then
        match readNDigits 2 0 cs with
        | none => none
        | some (h, cs1) =>
          match expectChar ':' cs1 with
          | none => none
          | some cs2 =>
            match readNDigits 2 0 cs2 with
            | none => none
            | some (m, cs3) =>
              if cs3 = [] ∧ h < 24 ∧ m < 60 then
                some (some (if c = '-' then -((h : Int) * 60 + m) else (h : Int) * 60 + m))
              else none
      else none

/-- Days in a month of the proleptic Gregorian calendar, as Python's
`datetime` validates them. -/
def daysInMonth (year month : Nat) : Nat :=
  if month = 2 then
    if year % 4 = 0 ∧ (year % 100 ≠ 0 ∨ year % 400 = 0) then 29 else 28
  else if month = 4 ∨ month = 6 ∨ month = 9 ∨ month = 11 then 30
  else 31

/-- Models `datetime.fromisoformat` on the strings this program feeds it after
its `replace('Z', '+00:00')` step: `YYYY-MM-DDTHH:MM:SS` with an optional
`±HH:MM` offset.  Returns `none` where Python raises `ValueError`. -/
def fromisoformat (s : String) : Option PyDateTime :=
  match readNDigits 4 0 s.data with
  | none => none
  | some (y, r1) =>
    match expectChar '-' r1 with
    | none => none
    | some r2 =>
      match readNDigits 2 0 r2 with
      | none => none
      | some (mo, r3) =>
        match expectChar '-' r3 with
        | none => none
        | some r4 =>
          match readNDigits 2 0 r4 with
          | none => none
          | some (d, r5) =>
            match expectChar 'T' r5 with
            | none => none
            | some r6 =>
              match readNDigits 2 0 r6 with
              | none => none
              | some (h, r7) =>
                match expectChar ':' r7 with
                | none => none
                | some r8 =>
                  match readNDigits 2 0 r8 with
                  | none => none
                  | some (mi, r9) =>
                    match expectChar ':' r9 with
                    | none => none
                    | some r10 =>
                      match readNDigits 2 0 r10 with
                      | none => none
                      | some (sec, r11) =>
                        match parseOffset r11 with
                        | none => none
                        | some off =>
                          if 1 ≤ mo ∧ mo ≤ 12 ∧ 1 ≤ d ∧ d ≤ daysInMonth y mo ∧
                              h ≤ 23 ∧ mi ≤ 59 ∧ sec ≤ 59 ∧ 1 ≤ y ∧ y ≤ 9999 then
                            some ⟨y, mo, d, h, mi, sec, off⟩
                          else none

/-- `date_str.replace('Z', '+00:00')`: every occurrence of the character `Z`
becomes the five characters `+00:00`. -/
def replaceZ : List Char → List Char
  | [] => []
  | c :: cs =>
      if c = 'Z' then '+' :: '0' :: '0' :: ':' :: '0' :: '0' :: replaceZ cs
      else c :: replaceZ cs

/-- The source's timestamp pipeline (lines 88-91): replace `Z` by `+00:00`,
parse with `fromisoformat`, and if the result is naive attach UTC via
`pytz.utc.localize`. -/
def parsePublishedAt (s : String) : Option PyDateTime :=
  match fromisoformat (String.mk (replaceZ s.data)) with
  | none => none
  | some d =>
      if d.tzOffsetMinutes.isNone then some { d with tzOffsetMinutes := some 0 }
      else some d

/-- Zero-padded two-digit decimal rendering. -/
def pad2 (n : Nat) : String :=
  if n < 10 then "0" ++ toString n else toString n

/-- Zero-padded four-digit decimal rendering (years). -/
def pad4 (n : Nat) : String :=
  if n < 10 then "000" ++ toString n
  else if n < 100 then "00" ++ toString n
  else if n < 1000 then "0" ++ toString n
  else toString n

/-- `datetime.isoformat()` for whole-second datetimes: `YYYY-MM-DDTHH:MM:SS`
followed by `±HH:MM` when an offset is present. -/
def pyIsoformat (d : PyDateTime) : String :=
  pad4 d.year ++ "-" ++ pad2 d.month ++ "-" ++ pad2 d.day ++ "T" ++
    pad2 d.hour ++ ":" ++ pad2 d.minute ++ ":" ++ pad2 d.second ++
    (match d.tzOffsetMinutes with
     | none => ""
     | some off =>
         (if off < 0 then "-" else "+") ++
           pad2 (off.natAbs / 60) ++ ":" ++ pad2 (off.natAbs % 60))

/-- An article record as the dictionary built on lines 93-99: all five fields
are strings at the point of storage (`published_at` holds the `isoformat()`
rendering of the parsed, timezone-aware datetime). -/
structure Article where
  title : String
  link : String
  summary : String
  published_at : String
  source : String
deriving DecidableEq

/-- The Supabase client handle; only its presence matters to the program. -/
structure Client where
  url : String
  key : String
deriving DecidableEq

/-- Modelled from the spec: `supabase.create_client` (an external library)
fails to initialize when the store endpoint URL or the access credential is
absent.  Composed with the source's `try/except` (lines 27-32), which converts
the raised error into `supabase = None`, the global handle is `none` exactly
when either environment variable is missing. -/
def create_client (url key : Option String) : Option Client :=
  match url, key with
  | some u, some k => some ⟨u, k⟩
  | _, _ => none

/-- The fixed base URL of the scraper (line 36). -/
def BASE_URL : String := "https://venturebeat.com"

/-- The body of the extraction loop (lines 72-102) for one `<article>`
element.  The outer `Option` distinguishes an uncaught exception — the
`KeyError` from `title_tag.find('a')['href']` when the link tag has no
`href`, which aborts the whole crawl via the outer `except` — from normal
control flow; the inner `Option` is `none` when the element is skipped
(`continue`) and `some` when a record is appended. -/
def processArticle (el : Node) : Option (Option Article) :=
  match findIn "h2" el with
  | none => some none
  | some title_tag =>
    match findIn "a" title_tag with
    | none => some none
    | some a_tag =>
      let title := getTextStrip title_tag
      match attrLookup a_tag "href" with
      | none => none
      | some relative_link =>
        let absolute_link := urljoin BASE_URL relative_link
        let summary := match findIn "p" el with
          | some p_tag => getTextStrip p_tag
          | none => ""
        match findIn "time" el with
        | none => some none
        | some date_tag =>
          match attrLookup date_tag "datetime" with
          | none => some none
          | some date_str =>
            match parsePublishedAt date_str with
            | none => some none
            | some article_date =>
                some (some { title := title, link := absolute_link,
                             summary := collapseWs summary,
                             published_at := pyIsoformat article_date,
                             source := "VentureBeat" })

/-- The extraction loop over all `<article>` elements, in document order.
`none` models the loop aborting with an uncaught exception (the whole crawl
then returns `None` through the outer `except`, discarding prior records). -/
def extractArticles : List Node → Option (List Article)
  | [] => some []
  | el :: els =>
    match processArticle el with
    | none => none
    | some none => extractArticles els
    | some (some a) =>
      match extractArticles els with
      | none => none
      | some rest => some (a :: rest)

/-- `crawl_venturebeat` (lines 34-113) as a function of the global client
handle and the rendered document's top-level nodes: with no valid client it
returns `None` at once (lines 40-42); otherwise it collects records from every
`<article>` element found in the page (line 70 onwards).  Page loading and the
timeout path are performed by external collaborators and yield `none` as well;
they are outside this pure core. -/
def crawl_venturebeat (client : Option Client) (doc : List Node) :
    Option (List Article) :=
  match client with
  | none => none
  | some _ => extractArticles (allTagsNamedL "article" doc)

/-- The store: the `articles` table, a list of rows.  The program relies on
`link` being a unique key, so well-formed states have `Nodup` links. -/
abbrev Store := List Article

/-- The links of the rows currently in the store. -/
def storeLinks (s : Store) : List String :=
  s.map (·.link)

/-- Modelled from the spec: one upsert-by-unique-key step of the external
store ("a store write that inserts a new row or updates an existing one based
on a unique key, in one atomic operation").  A row whose `link` matches is
overwritten in place; otherwise the record is appended. -/
def upsertOne (s : Store) (a : Article) : Store :=
  if (storeLinks s).contains a.link then
    s.map (fun r => if r.link = a.link then a else r)
  else s ++ [a]

/-- Modelled from the spec: the store's batch upsert with `on_conflict='link'`
applies the submitted records in order, each by upsert-by-unique-key. -/
def upsert (s : Store) (batch : List Article) : Store :=
  batch.foldl upsertOne s

/-- `save_to_supabase` (lines 116-158) on a store state.  Returns the new
store state paired with the Python return value; every `return` in the source
is a bare `return`, so the second component is always `none`.  The store query
(line 131) yields the links of rows whose `link` is among the crawled links;
`new_articles` keeps only input records whose link is not among those; only
`new_articles` is upserted (line 149). -/
def save_to_supabase (client : Option Client) (store : Store)
    (articles : List Article) : Store × Option Nat :=
  if articles.isEmpty then (store, none)
  else match client with
  | none => (store, none)
  | some _ =>
    let crawled_links := articles.map (·.link)
    let existing_links :=
      (store.filter (fun r => crawled_links.contains r.link)).map (·.link)
    let new_articles :=
      articles.filter (fun a => !existing_links.contains a.link)
    if new_articles.isEmpty then (store, none)
    else (upsert store new_articles, none)

/-- The `__main__` block (lines 161-171): crawl, and only when the crawl
produced a non-empty list call `save_to_supabase`. -/
def mainRun (client : Option Client) (doc : List Node) (store : Store) :
    Store :=
  match crawl_venturebeat client doc with
  | none => store
  | some arts =>
      if arts.isEmpty then store else (save_to_supabase client store arts).1

/-- `n` successive calls of the persister with the same input. -/
def persistIter (client : Option Client) (articles : List Article) :
    Nat → Store → Store
  | 0, store => store
  | n + 1, store =>
      persistIter client articles n (save_to_supabase client store articles).1

/-! ### Helper lemmas about the store model -/

lemma contains_iff (l : List String) (a : String) :
    l.contains a = true ↔ a ∈ l :=
  List.elem_iff

lemma map_update_of_not_mem {s : Store} {a : Article}
    (h : a.link ∉ storeLinks s) :
    s.map (fun r => if r.link = a.link then a else r) = s := by
  conv_rhs => rw [← List.map_id s]
  refine List.map_congr_left fun r hr => ?_
  have hne : r.link ≠ a.link := fun he => h (he ▸ List.mem_map_of_mem _ hr)
  simp [hne]

lemma upsertOne_of_not_mem {s : Store} {a : Article}
    (h : a.link ∉ storeLinks s) : upsertOne s a = s ++ [a] := by
  unfold upsertOne
  rw [if_neg]
  simp only [contains_iff]
  exact h

lemma mem_storeLinks_upsertOne (s : Store) (a : Article) (l : String) :
    l ∈ storeLinks (upsertOne s a) ↔ l ∈ storeLinks s ∨ l = a.link := by
  unfold upsertOne
  by_cases h : a.link ∈ storeLinks s
  · rw [if_pos (by simpa [contains_iff] using h)]
    unfold storeLinks at h ⊢
    simp only [List.map_map, List.mem_map, Function.comp] at h ⊢
    constructor
    · rintro ⟨r, hr, hrl⟩
      by_cases hc : r.link = a.link
      · simp [hc] at hrl; exact Or.inr hrl.symm
      · simp [hc] at hrl; exact Or.inl ⟨r, hr, hrl⟩
    · rintro (⟨r, hr, hrl⟩ | rfl)
      · by_cases hc : r.link = a.link
        · obtain ⟨r0, hr0, hr0l⟩ := h
          exact ⟨r0, hr0, by simp [hr0l, ← hrl, hc]⟩
        · exact ⟨r, hr, by rw [if_neg hc]; exact hrl⟩
      · obtain ⟨r0, hr0, hr0l⟩ := h
        exact ⟨r0, hr0, by simp [hr0l]⟩
  · rw [if_neg (by simpa [contains_iff] using h)]
    unfold storeLinks
    simp [or_comm, eq_comm]

lemma nodup_storeLinks_upsertOne {s : Store} (a : Article)
    (h : (storeLinks s).Nodup) : (storeLinks (upsertOne s a)).Nodup := by
  unfold upsertOne
  by_cases hm : a.link ∈ storeLinks s
  · rw [if_pos (by simpa [contains_iff] using hm)]
    unfold storeLinks at h ⊢
    rw [List.map_map]
    have : ∀ r : Article,
        ((fun r : Article => r.link) ∘ fun r => if r.link = a.link then a else r) r =
          r.link := by
      intro r; by_cases hc : r.link = a.link <;> simp [Function.comp, hc]
    rw [List.map_congr_left fun r _ => this r]
    exact h
  · rw [if_neg (by simpa [contains_iff] using hm)]
    unfold storeLinks at h hm ⊢
    rw [List.map_append, List.nodup_append]
    refine ⟨h, List.nodup_singleton _, ?_⟩
    intro x hx₁ hx₂
    simp only [List.map_cons, List.map_nil, List.mem_singleton] at hx₂
    exact hm (hx₂ ▸ hx₁)

lemma filter_link_eq_nil {s : Store} {l : String} (h : l ∉ storeLinks s) :
    s.filter (fun r => r.link == l) = [] := by
  rw [List.filter_eq_nil_iff]
  intro r hr hrl
  rw [beq_iff_eq] at hrl
  exact h (hrl ▸ List.mem_map_of_mem _ hr)

lemma filter_link_upsertOne {s : Store} (a : Article) (l : String)
    (hnd : (storeLinks s).Nodup) :
    (upsertOne s a).filter (fun r => r.link == l) =
      if a.link = l then [a] else s.filter (fun r => r.link == l) := by
  unfold upsertOne
  by_cases hm : a.link ∈ storeLinks s
  · rw [if_pos (by simpa [contains_iff] using hm)]
    induction s with
    | nil => simp [storeLinks] at hm
    | cons r rest ih =>
        unfold storeLinks at hnd hm
        simp only [List.map_cons, List.nodup_cons] at hnd
        simp only [List.map_cons, List.mem_cons] at hm
        rcases hm with hm | hm
        · have hrest : rest.map (fun x => if x.link = a.link then a else x) = rest :=
            map_update_of_not_mem (s := rest) (by rw [hm]; exact hnd.1)
          have hhead : (if r.link = a.link then a else r) = a := if_pos hm.symm
          simp only [List.map_cons, hrest, hhead]
          by_cases hl : a.link = l
          · rw [if_pos hl]
            have hres : List.filter (fun x => x.link == l) rest = [] :=
              filter_link_eq_nil (by rw [← hl, hm]; exact hnd.1)
            simp [List.filter_cons, beq_iff_eq, hl, hres]
          · rw [if_neg hl]
            have h1 : ¬(a.link == l) = true := by rw [beq_iff_eq]; exact hl
            have h2 : ¬(r.link == l) = true := by rw [beq_iff_eq, ← hm]; exact hl
            simp [List.filter_cons, h1, h2]
        · have hra : r.link ≠ a.link := by
            intro hc; exact hnd.1 (hc ▸ hm)
          have ihr := ih hnd.2 hm
          simp only [List.map_cons, if_neg hra]
          by_cases hl : a.link = l
          · rw [if_pos hl] at ihr ⊢
            have hrl : ¬(r.link == l) = true := by
              rw [beq_iff_eq]; intro hc; exact hra (hc.trans hl.symm)
            simp [List.filter_cons, hrl, ihr]
          · rw [if_neg hl] at ihr ⊢
            simp only [List.filter_cons, ihr]
  · rw [if_neg (by simpa [contains_iff] using hm)]
    rw [List.filter_append]
    by_cases hl : a.link = l
    · rw [if_pos hl, filter_link_eq_nil (hl ▸ hm)]
      simp [hl]
    · rw [if_neg hl]
      simp [List.filter_cons, beq_iff_eq, hl]

lemma filter_link_length_le_one {s : Store} {l : String}
    (hnd : (storeLinks s).Nodup) :
    (s.filter (fun r => r.link == l)).length ≤ 1 := by
  by_contra hgt
  push_neg at hgt
  match hf : s.filter (fun r => r.link == l) with
  | [] => rw [hf] at hgt; simp at hgt
  | [x] => rw [hf] at hgt; simp at hgt
  | x :: y :: rest =>
      have hnd2 : (s.map (fun r => r.link)).Nodup := hnd
      have hsub : ((s.filter (fun r => r.link == l)).map (fun r => r.link)).Nodup :=
        ((List.filter_sublist s).map (fun r => r.link)).nodup hnd2
      rw [hf] at hsub
      have hx : x.link = l := by
        have := List.mem_filter.mp (hf ▸ List.mem_cons_self x (y :: rest))
        exact beq_iff_eq.mp this.2
      have hy : y.link = l := by
        have := List.mem_filter.mp
          (hf ▸ List.mem_cons_of_mem x (List.mem_cons_self y rest))
        exact beq_iff_eq.mp this.2
      simp only [List.map_cons, List.nodup_cons, List.mem_cons] at hsub
      exact hsub.1 (Or.inl (hx.trans hy.symm))

lemma filter_link_eq_getLast_toList {s : Store} {l : String}
    (hnd : (storeLinks s).Nodup) :
    s.filter (fun r => r.link == l) =
      ((s.filter (fun r => r.link == l)).getLast?).toList := by
  have hle := filter_link_length_le_one (s := s) (l := l) hnd
  match hf : s.filter (fun r => r.link == l) with
  | [] => rw [hf]; rfl
  | [x] => rw [hf]; rfl
  | x :: y :: rest => rw [hf] at hle; simp at hle

lemma mem_storeLinks_upsert (batch : List Article) (s : Store) (l : String) :
    l ∈ storeLinks (upsert s batch) ↔
      l ∈ storeLinks s ∨ l ∈ batch.map (·.link) := by
  induction batch generalizing s with
  | nil => simp [upsert]
  | cons b bs ih =>
      unfold upsert at ih ⊢
      rw [List.foldl_cons, ih, mem_storeLinks_upsertOne]
      simp [or_assoc, eq_comm]

lemma nodup_storeLinks_upsert (batch : List Article) {s : Store}
    (h : (storeLinks s).Nodup) : (storeLinks (upsert s batch)).Nodup := by
  induction batch generalizing s with
  | nil => exact h
  | cons b bs ih =>
      unfold upsert at ih ⊢
      rw [List.foldl_cons]
      exact ih (nodup_storeLinks_upsertOne b h)

lemma filter_link_upsert (batch : List Article) {s : Store} (l : String)
    (hnd : (storeLinks s).Nodup) :
    (upsert s batch).filter (fun r => r.link == l) =
      ((s.filter (fun r => r.link == l) ++
        batch.filter (fun a => a.link == l)).getLast?).toList := by
  induction batch generalizing s with
  | nil =>
      unfold upsert
      rw [List.foldl_nil, List.filter_nil, List.append_nil]
      exact filter_link_eq_getLast_toList hnd
  | cons b bs ih =>
      unfold upsert at ih ⊢
      rw [List.foldl_cons]
      rw [ih (nodup_storeLinks_upsertOne b hnd)]
      rw [filter_link_upsertOne b l hnd]
      by_cases hb : b.link = l
      · rw [if_pos hb]
        have h1 : (b.link == l) = true := beq_iff_eq.mpr hb
        rw [List.filter_cons, if_pos h1]
        rw [List.getLast?_append_of_ne_nil _ (List.cons_ne_nil b _)]
        rfl
      · rw [if_neg hb]
        have h1 : ¬(b.link == l) = true := by rw [beq_iff_eq]; exact hb
        rw [List.filter_cons, if_neg h1]

lemma upsertOne_append {s t : Store} {b : Article}
    (h : b.link ∉ storeLinks s) :
    upsertOne (s ++ t) b = s ++ upsertOne t b := by
  unfold upsertOne
  have hlinks : storeLinks (s ++ t) = storeLinks s ++ storeLinks t :=
    List.map_append _ s t
  by_cases hm : b.link ∈ storeLinks t
  · have hm2 : (storeLinks (s ++ t)).contains b.link = true := by
      rw [contains_iff, hlinks]
      exact List.mem_append_right _ hm
    rw [if_pos hm2, if_pos (by rw [contains_iff]; exact hm)]
    rw [List.map_append]
    congr 1
    exact map_update_of_not_mem h
  · have hm2 : ¬(storeLinks (s ++ t)).contains b.link = true := by
      rw [contains_iff, hlinks, List.mem_append]
      rintro (hc | hc)
      · exact h hc
      · exact hm hc
    rw [if_neg hm2, if_neg (by rw [contains_iff]; exact hm)]
    rw [List.append_assoc]

lemma upsert_append {s t : Store} {batch : List Article}
    (h : ∀ b ∈ batch, b.link ∉ storeLinks s) :
    upsert (s ++ t) batch = s ++ upsert t batch := by
  induction batch generalizing t with
  | nil => rfl
  | cons b bs ih =>
      unfold upsert at ih ⊢
      rw [List.foldl_cons, List.foldl_cons]
      rw [upsertOne_append (h b (List.mem_cons_self b bs))]
      exact ih fun b' hb' => h b' (List.mem_cons_of_mem b hb')

/-- Records whose link the persister's store query marks as "existing" are
exactly those whose link is already a store link: the query restricts the
store to crawled links, and every input record's link is crawled. -/
lemma new_articles_filter_eq (store : Store) (R : List Article) :
    R.filter
        (fun a => !((store.filter
          (fun r => (R.map (·.link)).contains r.link)).map (·.link)).contains a.link) =
      R.filter (fun a => !(storeLinks store).contains a.link) := by
  refine List.filter_congr fun a ha => ?_
  have hacr : a.link ∈ R.map (·.link) := List.mem_map_of_mem _ ha
  congr 1
  rw [Bool.eq_iff_iff, contains_iff, contains_iff]
  constructor
  · intro hc
    obtain ⟨r, hr, hrl⟩ := List.mem_map.mp hc
    exact hrl ▸ List.mem_map_of_mem _ (List.mem_filter.mp hr).1
  · intro hmem
    obtain ⟨r, hr, hrl⟩ := List.mem_map.mp hmem
    have hrmem : r ∈ store.filter (fun r => (R.map (·.link)).contains r.link) :=
      List.mem_filter.mpr ⟨hr, by rw [contains_iff, hrl]; exact hacr⟩
    exact hrl ▸ List.mem_map_of_mem _ hrmem

/-- Every record surviving the persister's "new articles" filter has a link
absent from the store. -/
lemma new_articles_links_not_mem (store : Store) (R : List Article) :
    ∀ b ∈ R.filter (fun a => !(storeLinks store).contains a.link),
      b.link ∉ storeLinks store := by
  intro b hb hmem
  have h2 := (List.mem_filter.mp hb).2
  rw [(contains_iff _ _).mpr hmem] at h2
  simp at h2

/-- The persister's observable effect, in closed form: the pre-existing rows
are untouched (and keep their positions), the records whose link is not
already present are upserted onto the end, and the Python return value is
`None`. -/
lemma save_eq (cl : Client) (store : Store) (R : List Article) :
    save_to_supabase (some cl) store R =
      (store ++
        upsert [] (R.filter (fun a => !(storeLinks store).contains a.link)),
       none) := by
  by_cases hR : R.isEmpty
  · rw [List.isEmpty_iff] at hR
    subst hR
    simp [save_to_supabase, upsert]
  · simp only [save_to_supabase, if_neg hR]
    rw [new_articles_filter_eq store R]
    by_cases hnew : (R.filter (fun a => !(storeLinks store).contains a.link)).isEmpty
    · rw [if_pos hnew]
      rw [List.isEmpty_iff] at hnew
      rw [hnew]
      simp [upsert]
    · rw [if_neg hnew]
      have h1 : upsert store (R.filter (fun a => !(storeLinks store).contains a.link)) =
          store ++ upsert [] (R.filter (fun a => !(storeLinks store).contains a.link)) := by
        calc upsert store (R.filter (fun a => !(storeLinks store).contains a.link))
            = upsert (store ++ []) (R.filter (fun a => !(storeLinks store).contains a.link)) := by
              rw [List.append_nil]
          _ = store ++ upsert [] (R.filter (fun a => !(storeLinks store).contains a.link)) :=
              upsert_append (new_articles_links_not_mem store R)
      rw [h1]

/-- After one persist call every input link is present in the store. -/
lemma links_present_after_save (cl : Client) (store : Store) (R : List Article) :
    ∀ a ∈ R, a.link ∈ storeLinks (save_to_supabase (some cl) store R).1 := by
  intro a ha
  rw [save_eq]
  unfold storeLinks
  rw [List.map_append, List.mem_append]
  by_cases hmem : a.link ∈ storeLinks store
  · exact Or.inl hmem
  · right
    have haf : a ∈ R.filter (fun x => !(storeLinks store).contains x.link) := by
      refine List.mem_filter.mpr ⟨ha, ?_⟩
      rw [Bool.not_eq_true', ← Bool.not_eq_true, contains_iff]
      exact hmem
    have : a.link ∈ storeLinks (upsert ([] : Store)
        (R.filter (fun x => !(storeLinks store).contains x.link))) :=
      (mem_storeLinks_upsert _ _ _).mpr (Or.inr (List.mem_map_of_mem _ haf))
    exact this

/-- Persisting the same records a second time is a no-op on the store. -/
lemma save_idem (cl : Client) (store : Store) (R : List Article) :
    save_to_supabase (some cl) (save_to_supabase (some cl) store R).1 R =
      ((save_to_supabase (some cl) store R).1, none) := by
  rw [save_eq cl ((save_to_supabase (some cl) store R).1) R]
  have hnil : R.filter
      (fun a => !(storeLinks (save_to_supabase (some cl) store R).1).contains a.link) = [] := by
    rw [List.filter_eq_nil_iff]
    intro a ha
    rw [(contains_iff _ _).mpr (links_present_after_save cl store R a ha)]
    simp
  rw [hnil]
  simp [upsert]

/-- Length of a store after a batch upsert: the number of distinct links among
the old rows and the batch. -/
lemma upsert_length (batch : List Article) (t : Store)
    (hnd : (storeLinks t).Nodup) :
    (upsert t batch).length =
      ((storeLinks t) ++ batch.map (·.link)).toFinset.card := by
  induction batch generalizing t with
  | nil =>
      unfold upsert
      rw [List.foldl_nil]
      simp only [List.map_nil, List.append_nil]
      rw [List.toFinset_card_of_nodup hnd]
      exact (List.length_map _ _).symm
  | cons b bs ih =>
      unfold upsert at ih ⊢
      rw [List.foldl_cons]
      rw [ih (upsertOne t b) (nodup_storeLinks_upsertOne b hnd)]
      congr 1
      ext x
      simp only [List.mem_toFinset, List.mem_append, mem_storeLinks_upsertOne,
        List.map_cons, List.mem_cons]
      tauto

/-- The store length after one persist call, as distinct-link counts. -/
lemma save_length (cl : Client) (store : Store) (R : List Article)
    (hnd : (storeLinks store).Nodup) :
    (save_to_supabase (some cl) store R).1.length =
      (R.map (·.link)).dedup.length +
        (store.filter (fun r => !(R.map (·.link)).contains r.link)).length := by
  rw [save_eq]
  rw [List.length_append]
  rw [upsert_length _ [] (by simp [storeLinks])]
  have hS : store.length = (storeLinks store).toFinset.card := by
    rw [List.toFinset_card_of_nodup hnd]
    exact (List.length_map _ _).symm
  have hmapF : (R.filter (fun a => !(storeLinks store).contains a.link)).map (·.link) =
      (R.map (·.link)).filter (fun x => !(storeLinks store).contains x) := by
    rw [List.filter_map]
    rfl
  have hFset : ((R.filter (fun a => !(storeLinks store).contains a.link)).map
        (·.link)).toFinset =
      (R.map (·.link)).toFinset \ (storeLinks store).toFinset := by
    rw [hmapF]
    ext x
    simp only [List.mem_toFinset, List.mem_filter, Finset.mem_sdiff]
    rw [Bool.not_eq_true', ← Bool.not_eq_true, contains_iff]
  have hstoref : (store.filter (fun r => !(R.map (·.link)).contains r.link)).length =
      ((storeLinks store).toFinset \ (R.map (·.link)).toFinset).card := by
    have h1 : (store.filter (fun r => !(R.map (·.link)).contains r.link)).length =
        ((storeLinks store).filter (fun x => !(R.map (·.link)).contains x)).length := by
      conv_rhs => rw [show storeLinks store = store.map (fun r => r.link) from rfl,
        List.filter_map, List.length_map]
      rfl
    rw [h1]
    rw [← List.toFinset_card_of_nodup (hnd.filter _)]
    congr 1
    ext x
    simp only [List.mem_toFinset, List.mem_filter, Finset.mem_sdiff]
    rw [Bool.not_eq_true', ← Bool.not_eq_true, contains_iff]
  have h0 : (storeLinks ([] : Store) ++
      (R.filter (fun a => !(storeLinks store).contains a.link)).map (·.link)) =
      (R.filter (fun a => !(storeLinks store).contains a.link)).map (·.link) := rfl
  rw [h0, hS, hstoref, ← List.card_toFinset, hFset]
  rw [add_comm ((storeLinks store).toFinset.card),
    add_comm ((R.map (·.link)).toFinset.card)]
  rw [Finset.card_sdiff_add_card, Finset.card_sdiff_add_card, Finset.union_comm]

/-! ### Helper lemmas about the extractor -/

/-- The timestamp pipeline always yields a timezone-aware datetime: the
`tzinfo is None` branch attaches UTC. -/
lemma parsePublishedAt_tz_isSome {s : String} {dt : PyDateTime}
    (h : parsePublishedAt s = some dt) : dt.tzOffsetMinutes.isSome := by
  unfold parsePublishedAt at h
  split at h
  · simp at h
  · rename_i d hfi
    split at h
    · cases h
      rfl
    · rename_i hn
      cases h
      cases ht : dt.tzOffsetMinutes with
      | none => rw [ht] at hn; simp at hn
      | some z => rfl

/-- Characterization of a successful extraction of one article element: all
structural lookups succeeded, the timestamp parsed, and the record's fields
are exactly the extracted values. -/
lemma processArticle_some {el : Node} {a : Article}
    (h : processArticle el = some (some a)) :
    ∃ title_tag a_tag href date_tag date_str dt,
      findIn "h2" el = some title_tag ∧
      findIn "a" title_tag = some a_tag ∧
      attrLookup a_tag "href" = some href ∧
      findIn "time" el = some date_tag ∧
      attrLookup date_tag "datetime" = some date_str ∧
      parsePublishedAt date_str = some dt ∧
      a = { title := getTextStrip title_tag,
            link := urljoin BASE_URL href,
            summary := collapseWs (match findIn "p" el with
              | some p_tag => getTextStrip p_tag
              | none => ""),
            published_at := pyIsoformat dt,
            source := "VentureBeat" } := by
  unfold processArticle at h
  dsimp only at h
  split at h
  · simp at h
  · rename_i title_tag h1
    split at h
    · simp at h
    · rename_i a_tag h2
      split at h
      · simp at h
      · rename_i href h3
        split at h
        · simp at h
        · rename_i date_tag h4
          split at h
          · simp at h
          · rename_i date_str h5
            split at h
            · simp at h
            · rename_i dt h6
              simp only [Option.some.injEq] at h
              exact ⟨title_tag, a_tag, href, date_tag, date_str, dt,
                h1, h2, h3, h4, h5, h6, h.symm⟩

/-- A client value standing for a successfully initialized Supabase handle. -/
def demoClient : Client :=
  ⟨"https://demo.supabase.co", "service-role-key"⟩

/-- A fully well-formed `<article>` element: heading with linked title,
summary paragraph, and machine-readable timestamp. -/
def mkArticleEl (title href dateStr : String) : Node :=
  .tag "article" []
    [.tag "h2" [] [.tag "a" [("href", href)] [.text title]],
     .tag "p" [] [.text "summary text"],
     .tag "time" [("datetime", dateStr)] [.text "posted"]]

/-- A well-formed article element with no paragraph (no summary). -/
def mkArticleElNoSummary (title href dateStr : String) : Node :=
  .tag "article" []
    [.tag "h2" [] [.tag "a" [("href", href)] [.text title]],
     .tag "time" [("datetime", dateStr)] [.text "posted"]]

/-- An article element with heading and link but no `<time>` element. -/
def mkArticleElNoTime (title href : String) : Node :=
  .tag "article" []
    [.tag "h2" [] [.tag "a" [("href", href)] [.text title]],
     .tag "p" [] [.text "summary text"]]

/-- Processing a fully well-formed article element: the record is emitted as
soon as the timestamp parses, whatever instant it denotes. -/
lemma processArticle_mkArticleEl (t href d : String) {dt : PyDateTime}
    (h : parsePublishedAt d = some dt) :
    processArticle (mkArticleEl t href d) = some (some
      { title := pyStrip t, link := urljoin BASE_URL href,
        summary := collapseWs (pyStrip "summary text"),
        published_at := pyIsoformat dt, source := "VentureBeat" }) := by
  have hred : processArticle (mkArticleEl t href d) =
      match parsePublishedAt d with
      | none => some none
      | some article_date => some (some
          { title := pyStrip t, link := urljoin BASE_URL href,
            summary := collapseWs (pyStrip "summary text"),
            published_at := pyIsoformat article_date,
            source := "VentureBeat" }) := rfl
  rw [hred, h]

/-! ### Claim theorems -/

/-- C1 counterexample: with run time `T = 2024-06-01T12:00:00+00:00` and the
claimed 24-hour recency window, a record published at `T - 25h`
(`2024-05-31T11:00:00+00:00`) would have to be excluded; the extractor emits
it, because `crawl_venturebeat` contains no recency comparison at all. -/
theorem c1_counterexample :
    crawl_venturebeat (some demoClient)
      [mkArticleEl "Stale AI roundup" "/2024/05/stale"
        "2024-05-31T11:00:00+00:00"] = some
      [{ title := "Stale AI roundup",
         link := "https://venturebeat.com/2024/05/stale",
         summary := "summary text",
         published_at := "2024-05-31T11:00:00+00:00",
         source := "VentureBeat" }] := by decide

/-- C1 (amended): the extractor applies no recency filter.  A well-formed
article element is emitted for every parseable timestamp, however old: the
output does not depend on the timestamp's value, only on its parseability
(the behaviour the spec calls the unbounded-window mode). -/
theorem c1_no_recency_filter (t href d : String) (dt : PyDateTime)
    (h : parsePublishedAt d = some dt) :
    crawl_venturebeat (some demoClient) [mkArticleEl t href d] = some
      [{ title := pyStrip t, link := urljoin BASE_URL href,
         summary := collapseWs (pyStrip "summary text"),
         published_at := pyIsoformat dt, source := "VentureBeat" }] := by
  have hred : crawl_venturebeat (some demoClient) [mkArticleEl t href d] =
      extractArticles [mkArticleEl t href d] := rfl
  rw [hred]
  unfold extractArticles
  rw [processArticle_mkArticleEl t href d h]
  rfl

/-- C1 witness: the no-recency-filter theorem instantiated at a 2019
timestamp, five years before the other fixtures. -/
theorem c1_witness :
    parsePublishedAt "2019-07-01T08:30:00Z" =
      some ⟨2019, 7, 1, 8, 30, 0, some 0⟩ ∧
    crawl_venturebeat (some demoClient)
      [mkArticleEl "Ancient news" "/2019/07/ancient"
        "2019-07-01T08:30:00Z"] = some
      [{ title := pyStrip "Ancient news",
         link := urljoin BASE_URL "/2019/07/ancient",
         summary := collapseWs (pyStrip "summary text"),
         published_at := pyIsoformat ⟨2019, 7, 1, 8, 30, 0, some 0⟩,
         source := "VentureBeat" }] :=
  ⟨by decide,
   c1_no_recency_filter "Ancient news" "/2019/07/ancient"
     "2019-07-01T08:30:00Z" ⟨2019, 7, 1, 8, 30, 0, some 0⟩ (by decide)⟩

/-- C4 counterexample: an article element with extractable title and link but
no `<time>` element yields no record (`some []`), although the claim says the
absence of `published_at` must not prevent construction.  The conjuncts
witness that title and link are indeed extractable from this element. -/
theorem c4_counterexample :
    crawl_venturebeat (some demoClient)
      [mkArticleElNoTime "Complete heading" "/2024/06/no-time"] = some [] ∧
    findIn "h2" (mkArticleElNoTime "Complete heading" "/2024/06/no-time") =
      some (.tag "h2" []
        [.tag "a" [("href", "/2024/06/no-time")] [.text "Complete heading"]]) ∧
    findIn "a" (.tag "h2" []
        [.tag "a" [("href", "/2024/06/no-time")] [.text "Complete heading"]]) =
      some (.tag "a" [("href", "/2024/06/no-time")] [.text "Complete heading"]) ∧
    attrLookup (.tag "a" [("href", "/2024/06/no-time")]
        [.text "Complete heading"]) "href" = some "/2024/06/no-time" ∧
    getTextStrip (.tag "h2" []
        [.tag "a" [("href", "/2024/06/no-time")] [.text "Complete heading"]]) =
      "Complete heading" :=
  ⟨by decide, rfl, rfl, rfl, by decide⟩

/-- C4 (amended): a record is constructed exactly when title, link, and a
present, parseable timestamp all exist.  Absence of a summary degrades to the
empty summary; but absence of the `<time>` element drops the record, just as
a present-but-unparseable timestamp does. -/
theorem c4_best_effort :
    (∀ t href d : String, ∀ dt : PyDateTime, parsePublishedAt d = some dt →
      processArticle (mkArticleElNoSummary t href d) = some (some
        { title := pyStrip t, link := urljoin BASE_URL href,
          summary := collapseWs "", published_at := pyIsoformat dt,
          source := "VentureBeat" })) ∧
    (∀ t href : String, processArticle (mkArticleElNoTime t href) = some none) ∧
    (∀ t href d : String, parsePublishedAt d = none →
      processArticle (mkArticleEl t href d) = some none) := by
  refine ⟨fun t href d dt h => ?_, fun t href => rfl, fun t href d h => ?_⟩
  · have hred : processArticle (mkArticleElNoSummary t href d) =
        match parsePublishedAt d with
        | none => some none
        | some ad => some (some
            { title := pyStrip t, link := urljoin BASE_URL href,
              summary := collapseWs "", published_at := pyIsoformat ad,
              source := "VentureBeat" }) := rfl
    rw [hred, h]
  · have hred : processArticle (mkArticleEl t href d) =
        match parsePublishedAt d with
        | none => some none
        | some ad => some (some
            { title := pyStrip t, link := urljoin BASE_URL href,
              summary := collapseWs (pyStrip "summary text"),
              published_at := pyIsoformat ad,
              source := "VentureBeat" }) := rfl
    rw [hred, h]

/-- C4 witness: the best-effort theorem instantiated at concrete elements. -/
theorem c4_witness :
    processArticle (mkArticleElNoSummary "Bare item" "/bare"
        "2024-03-04T05:06:07Z") = some (some
      { title := pyStrip "Bare item", link := urljoin BASE_URL "/bare",
        summary := collapseWs "",
        published_at := pyIsoformat ⟨2024, 3, 4, 5, 6, 7, some 0⟩,
        source := "VentureBeat" }) ∧
    processArticle (mkArticleElNoTime "Bare item" "/bare") = some none ∧
    processArticle (mkArticleEl "Bad date" "/bad" "not-a-date") = some none :=
  ⟨c4_best_effort.1 "Bare item" "/bare" "2024-03-04T05:06:07Z"
     ⟨2024, 3, 4, 5, 6, 7, some 0⟩ (by decide),
   c4_best_effort.2.1 "Bare item" "/bare",
   c4_best_effort.2.2 "Bad date" "/bad" "not-a-date" (by decide)⟩

/-- A fully well-formed article element used by the C9 fixture document. -/
def wellFormedEl : Node :=
  mkArticleEl "Valid story" "/2024/06/valid" "2024-06-01T09:00:00Z"

/-- A malformed article container with no heading at all. -/
def articleNoHeading : Node :=
  .tag "article" [] [.tag "p" [] [.text "sponsored placeholder"]]

/-- A malformed article container whose heading contains no link. -/
def articleHeadingNoLink : Node :=
  .tag "article" []
    [.tag "h2" [] [.text "Heading without a link"],
     .tag "time" [("datetime", "2024-06-01T10:00:00Z")] [.text "posted"]]

/-- C9: a listing with one well-formed article element and two malformed ones
(no heading; heading without a link) yields exactly the one well-formed
record.  The result is `some [...]`, not `none`: the malformed containers are
skipped silently and the run is not aborted. -/
theorem c9_malformed_resilience :
    crawl_venturebeat (some demoClient)
      [wellFormedEl, articleNoHeading, articleHeadingNoLink] = some
      [{ title := "Valid story",
         link := "https://venturebeat.com/2024/06/valid",
         summary := "summary text",
         published_at := "2024-06-01T09:00:00+00:00",
         source := "VentureBeat" }] := by decide

/-- An article element whose heading link exists but contains only
whitespace text. -/
def blankTitleEl : Node :=
  .tag "article" []
    [.tag "h2" [] [.tag "a" [("href", "/2024/06/blank")] [.text "  "]],
     .tag "p" [] [.text "a summary"],
     .tag "time" [("datetime", "2024-06-05T08:00:00Z")] [.text "posted"]]

/-- C10 counterexample: the extractor emits a record whose `title` is the
empty string when the heading's link holds only whitespace — the loop checks
only the presence of `h2` and `a`, never that the stripped heading text is
non-empty. -/
theorem c10_counterexample :
    crawl_venturebeat (some demoClient) [blankTitleEl] = some
      [{ title := "", link := "https://venturebeat.com/2024/06/blank",
         summary := "a summary", published_at := "2024-06-05T08:00:00+00:00",
         source := "VentureBeat" }] := by decide

/-- C10 (amended): every constructed record's title is the whitespace-
stripped text of the article's `h2` heading — which may be empty; non-empty
titles are not enforced. -/
theorem c10_title_from_heading :
    ∀ (el : Node) (a : Article), processArticle el = some (some a) →
      ∃ title_tag : Node,
        findIn "h2" el = some title_tag ∧ a.title = getTextStrip title_tag := by
  intro el a h
  obtain ⟨title_tag, a_tag, href, date_tag, date_str, dt,
    h1, h2, h3, h4, h5, h6, ha⟩ := processArticle_some h
  exact ⟨title_tag, h1, by rw [ha]⟩

/-- C10 witness: the title-from-heading theorem at a concrete element. -/
theorem c10_witness :
    ∃ title_tag : Node,
      findIn "h2" (mkArticleEl "Fresh take" "/fresh" "2024-02-03T04:05:06Z") =
        some title_tag ∧
      ({ title := "Fresh take", link := "https://venturebeat.com/fresh",
         summary := "summary text",
         published_at := "2024-02-03T04:05:06+00:00",
         source := "VentureBeat" } : Article).title = getTextStrip title_tag :=
  c10_title_from_heading _ _ (by decide)

/-- C2 counterexample: two input records share the link
`https://venturebeat.com/dup` with differing fields, and the store already
holds a row for that link.  The claim requires the persisted row to hold the
last input record's values; instead the persister leaves the pre-existing row
untouched (its query-first filter drops every record whose link is already
stored), so the surviving row's title is "stored title", not "second". -/
theorem c2_counterexample :
    (save_to_supabase (some demoClient)
      [{ title := "stored title", link := "https://venturebeat.com/dup",
         summary := "old", published_at := "2024-01-01T00:00:00+00:00",
         source := "VentureBeat" }]
      [{ title := "first", link := "https://venturebeat.com/dup",
         summary := "s1", published_at := "2024-01-02T00:00:00+00:00",
         source := "VentureBeat" },
       { title := "second", link := "https://venturebeat.com/dup",
         summary := "s2", published_at := "2024-01-03T00:00:00+00:00",
         source := "VentureBeat" }]).1 =
      [{ title := "stored title", link := "https://venturebeat.com/dup",
         summary := "old", published_at := "2024-01-01T00:00:00+00:00",
         source := "VentureBeat" }] ∧
    ("stored title" : String) ≠ "second" := by decide

/-- C2 (amended): last-seen-wins dedup holds only for links not already in
the store: for such a link, the persisted state contains exactly the last
input record carrying it (one row, last entry wins).  For links already
present the pre-existing row survives unchanged instead (see C3). -/
theorem c2_last_seen_wins (cl : Client) (store : Store) (R : List Article)
    (l : String) (hnew : l ∉ storeLinks store) :
    (save_to_supabase (some cl) store R).1.filter (fun r => r.link == l) =
      ((R.filter (fun a => a.link == l)).getLast?).toList := by
  have hpair := save_eq cl store R
  have h1 : (save_to_supabase (some cl) store R).1 =
      store ++ upsert []
        (R.filter (fun a => !(storeLinks store).contains a.link)) := by
    rw [hpair]
  rw [h1, List.filter_append, filter_link_eq_nil hnew]
  rw [filter_link_upsert _ _ (by simp [storeLinks])]
  rw [List.filter_nil, List.nil_append, List.nil_append]
  congr 2
  rw [List.filter_filter]
  refine List.filter_congr fun a ha => ?_
  by_cases hl : (a.link == l) = true
  · have hll : a.link = l := beq_iff_eq.mp hl
    have hcon : (storeLinks store).contains a.link = false := by
      rw [← Bool.not_eq_true, contains_iff, hll]
      exact hnew
    rw [hl, hcon]
    rfl
  · rw [Bool.not_eq_true] at hl
    rw [hl]
    rfl

/-- C2 witness: the last-seen-wins theorem at an empty store and two records
sharing a fresh link. -/
theorem c2_witness :
    (save_to_supabase (some demoClient) []
      [{ title := "w-first", link := "https://venturebeat.com/w",
         summary := "ws1", published_at := "2024-04-01T00:00:00+00:00",
         source := "VentureBeat" },
       { title := "w-second", link := "https://venturebeat.com/w",
         summary := "ws2", published_at := "2024-04-02T00:00:00+00:00",
         source := "VentureBeat" }]).1.filter
        (fun r => r.link == "https://venturebeat.com/w") =
      (([{ title := "w-first", link := "https://venturebeat.com/w",
           summary := "ws1", published_at := "2024-04-01T00:00:00+00:00",
           source := "VentureBeat" },
         { title := "w-second", link := "https://venturebeat.com/w",
           summary := "ws2", published_at := "2024-04-02T00:00:00+00:00",
           source := "VentureBeat" }].filter
          (fun a => a.link == "https://venturebeat.com/w")).getLast?).toList :=
  c2_last_seen_wins demoClient []
    [{ title := "w-first", link := "https://venturebeat.com/w",
       summary := "ws1", published_at := "2024-04-01T00:00:00+00:00",
       source := "VentureBeat" },
     { title := "w-second", link := "https://venturebeat.com/w",
       summary := "ws2", published_at := "2024-04-02T00:00:00+00:00",
       source := "VentureBeat" }]
    "https://venturebeat.com/w" (by decide)

/-- C3 counterexample: an input record whose link matches an existing row
does not update that row in place — the persister filters it out before the
upsert, so the stored row keeps all its old field values. -/
theorem c3_counterexample :
    (save_to_supabase (some demoClient)
      [{ title := "kept", link := "https://venturebeat.com/update-me",
         summary := "old body", published_at := "2024-02-01T00:00:00+00:00",
         source := "VentureBeat" }]
      [{ title := "fresh", link := "https://venturebeat.com/update-me",
         summary := "new body", published_at := "2024-02-09T00:00:00+00:00",
         source := "VentureBeat" }]).1 =
      [{ title := "kept", link := "https://venturebeat.com/update-me",
         summary := "old body", published_at := "2024-02-01T00:00:00+00:00",
         source := "VentureBeat" }] ∧
    ({ title := "fresh", link := "https://venturebeat.com/update-me",
       summary := "new body", published_at := "2024-02-09T00:00:00+00:00",
       source := "VentureBeat" } : Article) ≠
      { title := "kept", link := "https://venturebeat.com/update-me",
        summary := "old body", published_at := "2024-02-01T00:00:00+00:00",
        source := "VentureBeat" } := by decide

/-- C3 (amended): input records whose link matches an existing row are
dropped entirely (the existing rows are preserved byte-for-byte, in place);
only records whose link is absent from the store are written, appended after
the existing rows. -/
theorem c3_insert_only (cl : Client) (store : Store) (R : List Article) :
    (save_to_supabase (some cl) store R).1 =
      store ++ upsert []
        (R.filter (fun a => !(storeLinks store).contains a.link)) := by
  rw [save_eq]

/-- C5: the persist operation is idempotent.  Under the store invariant that
links are unique: (i) persisting R twice yields the same store state as
persisting it once; (ii) any positive number of repetitions equals one call;
(iii) the resulting store still has pairwise-distinct links (no duplicate
rows are ever created); (iv) the row count after the call is the number of
distinct links in R plus the number of pre-existing rows with other links. -/
theorem c5_idempotent (cl : Client) (store : Store) (R : List Article)
    (hnd : (storeLinks store).Nodup) :
    (save_to_supabase (some cl)
        (save_to_supabase (some cl) store R).1 R).1 =
      (save_to_supabase (some cl) store R).1 ∧
    (∀ n : Nat, persistIter (some cl) R (n + 1) store =
      (save_to_supabase (some cl) store R).1) ∧
    (storeLinks (save_to_supabase (some cl) store R).1).Nodup ∧
    (save_to_supabase (some cl) store R).1.length =
      (R.map (·.link)).dedup.length +
        (store.filter (fun r => !(R.map (·.link)).contains r.link)).length := by
  have hidem : (save_to_supabase (some cl)
      (save_to_supabase (some cl) store R).1 R).1 =
      (save_to_supabase (some cl) store R).1 := by
    rw [save_idem]
  refine ⟨hidem, ?_, ?_, save_length cl store R hnd⟩
  · have hiter : ∀ n : Nat, persistIter (some cl) R n
        (save_to_supabase (some cl) store R).1 =
        (save_to_supabase (some cl) store R).1 := by
      intro n
      induction n with
      | zero => rfl
      | succ m ih =>
          unfold persistIter
          rw [save_idem]
          exact ih
    intro n
    unfold persistIter
    exact hiter n
  · rw [save_eq]
    unfold storeLinks
    rw [List.map_append, List.nodup_append]
    refine ⟨hnd, nodup_storeLinks_upsert _ (by simp [storeLinks]), ?_⟩
    intro x hx hx2
    have hx3 := (mem_storeLinks_upsert _ [] x).mp hx2
    rcases hx3 with hx3 | hx3
    · simp [storeLinks] at hx3
    · obtain ⟨b, hb, hbl⟩ := List.mem_map.mp hx3
      exact (new_articles_links_not_mem store R b hb) (hbl ▸ hx)

/-- C5 witness: idempotence at a store holding one unrelated row and an input
with a duplicated fresh link. -/
theorem c5_witness :
    (save_to_supabase (some demoClient)
        (save_to_supabase (some demoClient)
          [{ title := "pre", link := "https://venturebeat.com/pre",
             summary := "p", published_at := "2024-01-05T00:00:00+00:00",
             source := "VentureBeat" }]
          [{ title := "n1", link := "https://venturebeat.com/new",
             summary := "a", published_at := "2024-01-06T00:00:00+00:00",
             source := "VentureBeat" },
           { title := "n2", link := "https://venturebeat.com/new",
             summary := "b", published_at := "2024-01-07T00:00:00+00:00",
             source := "VentureBeat" }]).1
        [{ title := "n1", link := "https://venturebeat.com/new",
           summary := "a", published_at := "2024-01-06T00:00:00+00:00",
           source := "VentureBeat" },
         { title := "n2", link := "https://venturebeat.com/new",
           summary := "b", published_at := "2024-01-07T00:00:00+00:00",
           source := "VentureBeat" }]).1 =
      (save_to_supabase (some demoClient)
        [{ title := "pre", link := "https://venturebeat.com/pre",
           summary := "p", published_at := "2024-01-05T00:00:00+00:00",
           source := "VentureBeat" }]
        [{ title := "n1", link := "https://venturebeat.com/new",
           summary := "a", published_at := "2024-01-06T00:00:00+00:00",
           source := "VentureBeat" },
         { title := "n2", link := "https://venturebeat.com/new",
           summary := "b", published_at := "2024-01-07T00:00:00+00:00",
           source := "VentureBeat" }]).1 :=
  (c5_idempotent demoClient
    [{ title := "pre", link := "https://venturebeat.com/pre",
       summary := "p", published_at := "2024-01-05T00:00:00+00:00",
       source := "VentureBeat" }]
    [{ title := "n1", link := "https://venturebeat.com/new",
       summary := "a", published_at := "2024-01-06T00:00:00+00:00",
       source := "VentureBeat" },
     { title := "n2", link := "https://venturebeat.com/new",
       summary := "b", published_at := "2024-01-07T00:00:00+00:00",
       source := "VentureBeat" }] (by decide)).1

/-- C6 counterexample: persisting one record into an empty store writes one
row, yet the function's return value is `none` (Python `None`), not the
store-reported count `1` the claim promises. -/
theorem c6_counterexample :
    save_to_supabase (some demoClient) []
      [{ title := "only", link := "https://venturebeat.com/only",
         summary := "s", published_at := "2024-03-01T00:00:00+00:00",
         source := "VentureBeat" }] =
      ([{ title := "only", link := "https://venturebeat.com/only",
          summary := "s", published_at := "2024-03-01T00:00:00+00:00",
          source := "VentureBeat" }], none) := by decide

/-- C6 (amended): `save_to_supabase` returns no value on any path (every
`return` in the source is bare); the store-reported count is only printed for
observability, never returned. -/
theorem c6_returns_none (client : Option Client) (store : Store)
    (R : List Article) : (save_to_supabase client store R).2 = none := by
  cases client with
  | none =>
      unfold save_to_supabase
      by_cases h : R.isEmpty
      · rw [if_pos h]
      · rw [if_neg h]
  | some cl => rw [save_eq]

/-- C7: a missing store endpoint URL or access credential makes client
initialization fail (`supabase = None`); the crawl then returns the
no-articles result `None` immediately, the persister leaves the store
untouched and returns `None`, and the whole run is the identity on the
store — a clean no-op rather than an unhandled fault. -/
theorem c7_init_failure_noop (url key : Option String) (doc : List Node)
    (store : Store) (arts : List Article)
    (h : url = none ∨ key = none) :
    create_client url key = none ∧
    crawl_venturebeat (create_client url key) doc = none ∧
    save_to_supabase (create_client url key) store arts = (store, none) ∧
    mainRun (create_client url key) doc store = store := by
  have hcc : create_client url key = none := by
    rcases h with rfl | rfl
    · rfl
    · cases url <;> rfl
  refine ⟨hcc, ?_, ?_, ?_⟩
  · rw [hcc]
    rfl
  · rw [hcc]
    unfold save_to_supabase
    by_cases ha : arts.isEmpty
    · rw [if_pos ha]
    · rw [if_neg ha]
  · unfold mainRun
    rw [hcc]
    rfl

/-- C7 witness: the no-op theorem with the URL absent and a non-trivial
document, store and record list. -/
theorem c7_witness :
    create_client none (some "service-role-key") = none ∧
    crawl_venturebeat (create_client none (some "service-role-key"))
      [wellFormedEl] = none ∧
    save_to_supabase (create_client none (some "service-role-key"))
      [{ title := "row", link := "https://venturebeat.com/row",
         summary := "r", published_at := "2024-01-09T00:00:00+00:00",
         source := "VentureBeat" }]
      [{ title := "inp", link := "https://venturebeat.com/inp",
         summary := "i", published_at := "2024-01-10T00:00:00+00:00",
         source := "VentureBeat" }] =
      ([{ title := "row", link := "https://venturebeat.com/row",
          summary := "r", published_at := "2024-01-09T00:00:00+00:00",
          source := "VentureBeat" }], none) ∧
    mainRun (create_client none (some "service-role-key")) [wellFormedEl]
      [{ title := "row", link := "https://venturebeat.com/row",
         summary := "r", published_at := "2024-01-09T00:00:00+00:00",
         source := "VentureBeat" }] =
      [{ title := "row", link := "https://venturebeat.com/row",
         summary := "r", published_at := "2024-01-09T00:00:00+00:00",
         source := "VentureBeat" }] :=
  c7_init_failure_noop none (some "service-role-key") [wellFormedEl]
    [{ title := "row", link := "https://venturebeat.com/row",
       summary := "r", published_at := "2024-01-09T00:00:00+00:00",
       source := "VentureBeat" }]
    [{ title := "inp", link := "https://venturebeat.com/inp",
       summary := "i", published_at := "2024-01-10T00:00:00+00:00",
       source := "VentureBeat" }]
    (Or.inl rfl)

/-- C8: timezone normalization.  The `Z` designator and the explicit
`+00:00` offset parse to the identical instant; a naive timestamp is coerced
to UTC rather than rejected; the timestamp pipeline only ever produces
timezone-aware datetimes; and every record the extraction loop emits stores
`published_at` as the rendering of a timezone-aware datetime. -/
theorem c8_timezone_normalization :
    parsePublishedAt "2024-01-01T00:00:00Z" =
      parsePublishedAt "2024-01-01T00:00:00+00:00" ∧
    parsePublishedAt "2024-01-01T00:00:00Z" =
      some ⟨2024, 1, 1, 0, 0, 0, some 0⟩ ∧
    parsePublishedAt "2024-01-01T00:00:00" =
      some ⟨2024, 1, 1, 0, 0, 0, some 0⟩ ∧
    (∀ (s : String) (dt : PyDateTime), parsePublishedAt s = some dt →
      dt.tzOffsetMinutes.isSome) ∧
    (∀ (el : Node) (a : Article), processArticle el = some (some a) →
      ∃ dt : PyDateTime, dt.tzOffsetMinutes.isSome ∧
        a.published_at = pyIsoformat dt) := by
  refine ⟨by decide, by decide, by decide,
    fun s dt h => parsePublishedAt_tz_isSome h, fun el a h => ?_⟩
  obtain ⟨title_tag, a_tag, href, date_tag, date_str, dt,
    h1, h2, h3, h4, h5, h6, ha⟩ := processArticle_some h
  exact ⟨dt, parsePublishedAt_tz_isSome h6, by rw [ha]⟩

/-- C8 witness: the aware-at-storage components instantiated concretely. -/
theorem c8_witness :
    (⟨2023, 12, 31, 23, 59, 59, some (-300)⟩ : PyDateTime).tzOffsetMinutes.isSome ∧
    (∃ dt : PyDateTime, dt.tzOffsetMinutes.isSome ∧
      ({ title := "Fresh take", link := "https://venturebeat.com/fresh",
         summary := "summary text",
         published_at := "2023-12-31T23:59:59-05:00",
         source := "VentureBeat" } : Article).published_at = pyIsoformat dt) :=
  ⟨c8_timezone_normalization.2.2.2.1 "2023-12-31T23:59:59-05:00"
     ⟨2023, 12, 31, 23, 59, 59, some (-300)⟩ (by decide),
   c8_timezone_normalization.2.2.2.2
     (mkArticleEl "Fresh take" "/fresh" "2023-12-31T23:59:59-05:00") _
     (by decide)⟩

end VB
